import Mathlib

/-!
# Signaling relay, presence and recordings index of `server.js`

A shallow embedding of `src/server.js`: the Socket.IO signaling handlers for the
single room `default-room` (lines 101-120), the `requireAdmin` middleware
(lines 45-54) and the two recordings endpoints (lines 69-99).

Modelling conventions.

* JavaScript values are terms of `JsVal`.  Numbers are restricted to integers
  (the only numbers the handlers build are set sizes and file sizes).
* A socket is identified by a natural number assigned at connect time from a
  counter, so identifiers are never reused (Socket.IO draws random fresh ids).
* The room `default-room` of the in-memory adapter is a JavaScript `Set` of
  socket ids; it is modelled as a list in insertion order, adding only absent
  ids.  An empty room does not exist in the adapter (`rooms.get(ROOM)` is
  `undefined`).
* The process is single threaded: each inbound event runs its handler to the
  end, so a handler is a function from the state to the new state and the list
  of emissions it makes.
* When a socket closes, Socket.IO first removes it from its rooms and then
  fires the `disconnect` listener.
* A route is its chain of middleware: `requireAdmin`, on the upload route
  `upload.single('audio')`, then the handler; `express.json()` of line 41 stands
  in front of both routes.  A middleware that fails ends the request with
  the error answer of Express and nothing after it runs.
-/

namespace VoiceStream

/-! ## JavaScript values -/

/-- JavaScript values that reach the handlers. -/
inductive JsVal where
  | undefined : JsVal
  | null : JsVal
  | bool (b : Bool) : JsVal
  | num (n : Int) : JsVal
  | str (s : String) : JsVal
  | arr (items : List JsVal) : JsVal
  | obj (fields : List (String × JsVal)) : JsVal

namespace JsVal

/-- Truthiness of a value: `undefined`, `null`, `false`, `0` and `''` are falsy. -/
def truthy : JsVal → Bool
  | undefined => false
  | null => false
  | bool b => b
  | num n => n != 0
  | str s => s != ""
  | arr _ => true
  | obj _ => true

/-- The operator `a || b`: `a` when it is truthy, otherwise `b`. -/
def orElse (a b : JsVal) : JsVal :=
  if a.truthy then a else b

end JsVal

open JsVal

/-! ## Socket.IO state and emissions -/

/-- Socket identifier. -/
abbrev SocketId := Nat

/-- State of the signaling server. -/
structure Server where
  /-- Identifier the next connecting socket gets. -/
  nextId : SocketId
  /-- The sockets whose transport is open. -/
  connected : List SocketId
  /-- The field `socket.data.role` of each socket. -/
  role : SocketId → JsVal
  /-- The members of `default-room`, `io.sockets.adapter.rooms.get(ROOM)`. -/
  room : List SocketId

/-- One call of `emit`: the event name, its argument and the sockets it is sent to. -/
structure Emission where
  event : String
  payload : JsVal
  recipients : List SocketId

/-- The server right after start: no socket, no room. -/
def init : Server :=
  { nextId := 0, connected := [], role := fun _ => undefined, room := [] }

/-- Adding to a JavaScript `Set`: nothing changes when the element is present. -/
def setAdd (xs : List SocketId) (c : SocketId) : List SocketId :=
  if c ∈ xs then xs else xs ++ [c]

/-- Deleting from a JavaScript `Set`. -/
def setDelete (xs : List SocketId) (c : SocketId) : List SocketId :=
  xs.filter (fun m => m != c)

/-- The call `socket.join(ROOM)`. -/
def join (s : Server) (c : SocketId) : Server :=
  { s with room := setAdd s.room c }

/-- The expression `io.sockets.adapter.rooms.get(ROOM)?.size`. -/
def roomSize (s : Server) : JsVal :=
  if s.room.isEmpty then undefined else num (Int.ofNat s.room.length)

/-- The call `io.to(ROOM).emit(event, payload)`: every member of the room. -/
def ioToRoomEmit (s : Server) (event : String) (payload : JsVal) : Emission :=
  { event := event, payload := payload, recipients := s.room }

/-- The call `socket.to(ROOM).emit(event, payload)`: every member but `socket`. -/
def socketToRoomEmit (s : Server) (c : SocketId) (event : String) (payload : JsVal) :
    Emission :=
  { event := event, payload := payload, recipients := setDelete s.room c }

/-! ## The handlers of `io.on('connection', ...)` -/

/-- Handler of `role` (lines 106-110). -/
def onRole (s : Server) (c : SocketId) (role : JsVal) : Server × List Emission :=
  let s1 : Server := { s with role := fun x => if x = c then role else s.role x }
  let s2 := join s1 c
  (s2, [ioToRoomEmit s2 "presence"
          (obj [("role", role), ("count", (roomSize s2).orElse (num 0))])])

/-- Handler of `webrtc-offer` (line 113). -/
def onWebrtcOffer (s : Server) (c : SocketId) (msg : JsVal) : Server × List Emission :=
  (s, [socketToRoomEmit s c "webrtc-offer" msg])

/-- Handler of `webrtc-answer` (line 114). -/
def onWebrtcAnswer (s : Server) (c : SocketId) (msg : JsVal) : Server × List Emission :=
  (s, [socketToRoomEmit s c "webrtc-answer" msg])

/-- Handler of `webrtc-ice` (line 115). -/
def onWebrtcIce (s : Server) (c : SocketId) (msg : JsVal) : Server × List Emission :=
  (s, [socketToRoomEmit s c "webrtc-ice" msg])

/-- Closing of socket `c`: Socket.IO takes it out of its rooms and of the
connected sockets, then the `disconnect` listener (lines 117-119) runs. -/
def onDisconnect (s : Server) (c : SocketId) : Server × List Emission :=
  let s1 : Server :=
    { s with connected := setDelete s.connected c, room := setDelete s.room c }
  (s1, [ioToRoomEmit s1 "peer-disconnected"
          (obj [("role", (s.role c).orElse (str "unknown"))])])

/-- What reaches the server from outside. -/
inductive Input where
  /-- A new transport opens; the socket gets the next identifier. -/
  | connect : Input
  /-- Socket `c` sends the event `name` with argument `arg`. -/
  | event (c : SocketId) (name : String) (arg : JsVal) : Input
  /-- The transport of socket `c` closes. -/
  | disconnect (c : SocketId) : Input

/-- Listener lookup for an inbound event of socket `c`; an event without a
listener does nothing. -/
def onEvent (s : Server) (c : SocketId) (name : String) (arg : JsVal) :
    Server × List Emission :=
  if name = "role" then onRole s c arg
  else if name = "webrtc-offer" then onWebrtcOffer s c arg
  else if name = "webrtc-answer" then onWebrtcAnswer s c arg
  else if name = "webrtc-ice" then onWebrtcIce s c arg
  else (s, [])

/-- One inbound event.  Events and closings of a socket that is not connected
do not exist for the server. -/
def step (s : Server) : Input → Server × List Emission
  | .connect =>
      ({ s with nextId := s.nextId + 1,
                connected := s.connected ++ [s.nextId],
                role := fun x => if x = s.nextId then undefined else s.role x }, [])
  | .event c name arg => if c ∈ s.connected then onEvent s c name arg else (s, [])
  | .disconnect c => if c ∈ s.connected then onDisconnect s c else (s, [])

/-- A trace of inbound events, with the emissions in the order they are made. -/
def run (s : Server) : List Input → Server × List Emission
  | [] => (s, [])
  | i :: rest =>
      let r1 := step s i
      let r2 := run r1.1 rest
      (r2.1, r1.2 ++ r2.2)

/-- The single messages an emission list puts on the wire: recipient, event, payload. -/
def deliveries : List Emission → List (SocketId × String × JsVal)
  | [] => []
  | e :: rest => e.recipients.map (fun r => (r, e.event, e.payload)) ++ deliveries rest

/-! ## History of a trace -/

/-- The role announced by input `i`, when `i` is a `role` event of socket `c`
sent while `c` is connected. -/
def roleArg (s : Server) (c : SocketId) : Input → Option JsVal
  | .event d name arg => if d = c ∧ name = "role" ∧ c ∈ s.connected then some arg else none
  | _ => none

/-- Input `i` is the closing of socket `c` while `c` is connected. -/
def closes (s : Server) (c : SocketId) : Input → Bool
  | .disconnect d => decide (d = c ∧ c ∈ s.connected)
  | _ => false

/-- The role socket `c` announced last in the trace, if it announced one. -/
def lastAnnounced (s : Server) : List Input → SocketId → Option JsVal
  | [], _ => none
  | i :: rest, c =>
      match lastAnnounced (step s i).1 rest c with
      | some r => some r
      | none => roleArg s c i

/-- Socket `c` has announced a role at least once in the trace. -/
def hasAnnounced (s : Server) (tr : List Input) (c : SocketId) : Bool :=
  (lastAnnounced s tr c).isSome

/-- Socket `c` has closed somewhere in the trace. -/
def hasDisconnected (s : Server) : List Input → SocketId → Bool
  | [], _ => false
  | i :: rest, c => closes s c i || hasDisconnected (step s i).1 rest c

/-- The three relay events. -/
def IsRelayName (name : String) : Prop :=
  name = "webrtc-offer" ∨ name = "webrtc-answer" ∨ name = "webrtc-ice"

/-- Representation invariant of the state: the room and the connected sockets
are sets, room members are connected, and identifiers in use are below the counter. -/
structure WF (s : Server) : Prop where
  room_nodup : s.room.Nodup
  conn_nodup : s.connected.Nodup
  room_sub : ∀ c ∈ s.room, c ∈ s.connected
  conn_lt : ∀ c ∈ s.connected, c < s.nextId

/-- Socket `x` was connected once and is closed: it is below the counter and
neither connected nor in the room. -/
def Gone (s : Server) (x : SocketId) : Prop :=
  x < s.nextId ∧ x ∉ s.connected ∧ x ∉ s.room

/-- What the history says about the state a trace leads to. -/
structure Hist (tr : List Input) : Prop where
  wf : WF (run init tr).1
  room_iff : ∀ c, c ∈ (run init tr).1.room ↔
    (hasAnnounced init tr c = true ∧ c ∈ (run init tr).1.connected)
  closed_iff : ∀ c, hasDisconnected init tr c = true ↔
    (c < (run init tr).1.nextId ∧ c ∉ (run init tr).1.connected)
  announced_lt : ∀ c, hasAnnounced init tr c = true → c < (run init tr).1.nextId
  role_eq : ∀ c, (run init tr).1.role c = (lastAnnounced init tr c).getD undefined

/-- Three sockets A = 0, B = 1, C = 2, all of which have announced a role. -/
def roomABC : Server :=
  (run init [.connect, .connect, .connect,
             .event 0 "role" (str "broadcaster"),
             .event 1 "role" (str "listener"),
             .event 2 "role" (str "listener")]).1

/-- One socket, A = 0, alone in the room. -/
def roomA : Server :=
  (run init [.connect, .event 0 "role" (str "broadcaster")]).1

/-- The statement that the peer-disconnected event of the closing socket `c`
carries the role `c` announced last, and "unknown" exactly when `c` never
announced a role. -/
def DisconnectCarriesLastRole (tr : List Input) (c : SocketId) : Prop :=
  ∀ e ∈ (step (run init tr).1 (.disconnect c)).2,
    (∀ r, lastAnnounced init tr c = some r → e.payload = obj [("role", r)]) ∧
    (e.payload = obj [("role", str "unknown")] ↔ lastAnnounced init tr c = none)

/-- The scenario: A (0) and B (1) connect, A announces broadcaster, B announces
listener, A sends an offer, B closes. -/
def scenario : List Input :=
  [.connect, .connect,
   .event 0 "role" (str "broadcaster"),
   .event 1 "role" (str "listener"),
   .event 0 "webrtc-offer" (obj [("sdp", str "v=0...")]),
   .disconnect 1]

/-! ## The recordings endpoints -/

/-- An HTTP response: status code and body. -/
structure Response where
  status : Nat
  body : JsVal

/-- The constant `ADMIN_TOKEN` (line 45), `process.env.ADMIN_TOKEN || 'supersecrettoken123'`,
as a function of the environment variable. -/
def ADMIN_TOKEN (env : Option String) : String :=
  match env with
  | none => "supersecrettoken123"
  | some t => if t = "" then "supersecrettoken123" else t

/-- The response `res.status(401).json({ error: 'Unauthorized' })`. -/
def unauthorized : Response :=
  { status := 401, body := obj [("error", str "Unauthorized")] }

/-- The middleware `requireAdmin` (lines 48-54) on the value of
`req.headers['x-admin-token']`; `none` stands for the call of `next()`. -/
def requireAdmin (adminToken : String) (header : Option String) : Option Response :=
  match header with
  | none => some unauthorized
  | some token => if token = "" ∨ token ≠ adminToken then some unauthorized else none

/-- The text of `recordings/index.json`, read through `JSON.parse`: the empty
text, the JSON text of a value, or a text that `JSON.parse` rejects. -/
inductive FileText where
  | empty : FileText
  | json (v : JsVal) : FileText
  | garbage : FileText

/-- The file `recordings/index.json`; `none` when it does not exist. -/
abbrev IndexFile := Option FileText

/-- The expression `JSON.parse(fs.readFileSync(indexPath, 'utf8') || '[]')`;
`none` when it throws. -/
def parseIndex : FileText → Option JsVal
  | .empty => some (arr [])
  | .json v => some v
  | .garbage => none

/-- The field `req.file` as the disk storage of lines 57-67 leaves it: the file
is named after `Date.now()`. -/
structure UploadedFile where
  ts : Nat
  size : Nat

/-- The body of a request, as the body middleware of the application sees it. -/
inductive Body where
  /-- A JSON body that `express.json()` (line 41) rejects with an HTTP error of
  this status and message, for instance 400 on malformed JSON. -/
  | jsonRejected (status : Nat) (message : String) : Body
  /-- A body on which `upload.single('audio')` fails, for instance a multipart
  form with a file in a field other than `audio`. -/
  | multerRejected : Body
  /-- A body both accept, without a file in the field `audio`. -/
  | noFile : Body
  /-- A multipart form with one file in the field `audio`, stored as `f`. -/
  | file (f : UploadedFile) : Body

/-- The middleware `express.json()` lets the body through. -/
def Body.jsonOk : Body → Bool
  | .jsonRejected _ _ => false
  | _ => true

/-- A request to one of the two endpoints. -/
structure Request where
  /-- The header `x-admin-token`. -/
  adminHeader : Option String
  /-- The body of the request. -/
  body : Body
  /-- The value of `new Date().toISOString()` when the handler runs. -/
  now : String

/-- The field `req.file` once `upload.single('audio')` has called `next()`. -/
def Request.file (req : Request) : Option UploadedFile :=
  match req.body with
  | .file f => some f
  | _ => none

/-- The record `meta` of lines 72-77; `path.parse(ts + '.webm').name` is `ts`. -/
def metaOf (f : UploadedFile) (createdAt : String) : JsVal :=
  obj [("id", str (toString f.ts)),
       ("filename", str (toString f.ts ++ ".webm")),
       ("size", num (Int.ofNat f.size)),
       ("createdAt", str createdAt)]

/-- The handler of `POST /api/upload` (lines 70-87).  On a stored value that is
not an array `list.unshift` throws and Express answers 500. -/
def uploadHandler (req : Request) (index : IndexFile) : Response × IndexFile :=
  match req.file with
  | none => ({ status := 400, body := obj [("error", str "No file")] }, index)
  | some f =>
      let m := metaOf f req.now
      let list : JsVal :=
        match index with
        | none => arr []
        | some text =>
            match parseIndex text with
            | some v => v
            | none => arr []
      match list with
      | arr items =>
          ({ status := 200, body := obj [("ok", bool true), ("meta", m)] },
           some (.json (arr (m :: items))))
      | _ => ({ status := 500, body := str "Internal Server Error" }, index)

/-- The handler of `GET /api/recordings` (lines 90-99). -/
def listHandler (index : IndexFile) : Response × IndexFile :=
  match index with
  | none => ({ status := 200, body := arr [] }, index)
  | some text =>
      match parseIndex text with
      | some v => ({ status := 200, body := v }, index)
      | none => ({ status := 200, body := arr [] }, index)

/-- A route behind `requireAdmin`: the handler runs only after `next()`. -/
def guarded (adminToken : String) (handler : Request → IndexFile → Response × IndexFile)
    (req : Request) (index : IndexFile) : Response × IndexFile :=
  match requireAdmin adminToken req.adminHeader with
  | some resp => (resp, index)
  | none => handler req index

/-- The application middleware `express.json()` (line 41) in front of a route:
when it rejects the body, Express answers with the error and the route does not run. -/
def expressJson (route : Request → IndexFile → Response × IndexFile)
    (req : Request) (index : IndexFile) : Response × IndexFile :=
  match req.body with
  | .jsonRejected status message => ({ status := status, body := str message }, index)
  | _ => route req index

/-- The middleware `upload.single('audio')` (line 70) in front of a handler:
when it fails, Express answers 500 and the handler does not run. -/
def uploadSingle (handler : Request → IndexFile → Response × IndexFile)
    (req : Request) (index : IndexFile) : Response × IndexFile :=
  match req.body with
  | .multerRejected => ({ status := 500, body := str "Internal Server Error" }, index)
  | _ => handler req index

/-- The route `POST /api/upload` as registered on line 70: `requireAdmin`,
`upload.single('audio')`, then the handler. -/
def postUpload (env : Option String) (req : Request) (index : IndexFile) :
    Response × IndexFile :=
  guarded (ADMIN_TOKEN env) (uploadSingle uploadHandler) req index

/-- The route `GET /api/recordings` as registered on line 90: `requireAdmin`,
then the handler. -/
def getRecordings (env : Option String) (req : Request) (index : IndexFile) :
    Response × IndexFile :=
  guarded (ADMIN_TOKEN env) (fun _ idx => listHandler idx) req index

/-- A `POST /api/upload` through the application: `express.json()` of line 41,
then the route. -/
def appPostUpload (env : Option String) (req : Request) (index : IndexFile) :
    Response × IndexFile :=
  expressJson (postUpload env) req index

/-- A `GET /api/recordings` through the application: `express.json()` of line
41, then the route. -/
def appGetRecordings (env : Option String) (req : Request) (index : IndexFile) :
    Response × IndexFile :=
  expressJson (getRecordings env) req index

/-- An upload request carrying the configured token and a file. -/
def adminUpload (env : Option String) (f : UploadedFile) (now : String) : Request :=
  { adminHeader := some (ADMIN_TOKEN env), body := .file f, now := now }

/-- A sequence of uploads, in order; the result is the index file at the end. -/
def runUploads (env : Option String) (index : IndexFile) : List Request → IndexFile
  | [] => index
  | req :: rest => runUploads env (postUpload env req index).2 rest

/-! ## Basic facts about the set operations -/

theorem mem_setAdd (xs : List SocketId) (c m : SocketId) :
    m ∈ setAdd xs c ↔ m ∈ xs ∨ m = c := by
  unfold setAdd
  by_cases h : c ∈ xs
  · simp only [h, if_true]
    constructor
    · intro hm; exact Or.inl hm
    · rintro (hm | rfl)
      · exact hm
      · exact h
  · simp [h]

theorem nodup_setAdd (xs : List SocketId) (c : SocketId) (h : xs.Nodup) :
    (setAdd xs c).Nodup := by
  unfold setAdd
  by_cases hc : c ∈ xs
  · simpa [hc] using h
  · simp only [hc, if_false]
    rw [List.nodup_append]
    refine ⟨h, List.nodup_singleton c, ?_⟩
    intro a ha hb
    simp only [List.mem_singleton] at hb
    subst hb
    exact hc ha

theorem mem_setDelete (xs : List SocketId) (c m : SocketId) :
    m ∈ setDelete xs c ↔ m ∈ xs ∧ m ≠ c := by
  simp [setDelete]

theorem nodup_setDelete (xs : List SocketId) (c : SocketId) (h : xs.Nodup) :
    (setDelete xs c).Nodup :=
  h.filter _

theorem length_setAdd_le (xs : List SocketId) (c : SocketId) :
    xs.length ≤ (setAdd xs c).length ∧ (setAdd xs c).length ≤ xs.length + 1 := by
  unfold setAdd
  by_cases hc : c ∈ xs <;> simp [hc]

theorem setAdd_idem (xs : List SocketId) (c : SocketId) :
    setAdd (setAdd xs c) c = setAdd xs c := by
  have h : c ∈ setAdd xs c := (mem_setAdd xs c c).2 (Or.inr rfl)
  show (if c ∈ setAdd xs c then setAdd xs c else setAdd xs c ++ [c]) = setAdd xs c
  rw [if_pos h]

theorem setAdd_ne_nil (xs : List SocketId) (c : SocketId) : setAdd xs c ≠ [] := by
  intro h
  have : c ∈ setAdd xs c := (mem_setAdd xs c c).2 (Or.inr rfl)
  rw [h] at this
  exact List.not_mem_nil c this

theorem onEvent_relay (s : Server) (c : SocketId) (name : String) (msg : JsVal)
    (hn : IsRelayName name) :
    onEvent s c name msg = (s, [socketToRoomEmit s c name msg]) := by
  rcases hn with rfl | rfl | rfl <;>
    simp [onEvent, onWebrtcOffer, onWebrtcAnswer, onWebrtcIce]

theorem step_relay (s : Server) (c : SocketId) (name : String) (msg : JsVal)
    (hc : c ∈ s.connected) (hn : IsRelayName name) :
    step s (.event c name msg) = (s, [socketToRoomEmit s c name msg]) := by
  simp [step, hc, onEvent_relay s c name msg hn]

theorem step_role (s : Server) (c : SocketId) (r : JsVal) (hc : c ∈ s.connected) :
    step s (.event c "role" r) = onRole s c r := by
  simp [step, hc, onEvent]

theorem step_disconnect (s : Server) (c : SocketId) (hc : c ∈ s.connected) :
    step s (.disconnect c) = onDisconnect s c := by
  simp [step, hc]

theorem step_disconnect_closed (s : Server) (c : SocketId) (hc : c ∉ s.connected) :
    step s (.disconnect c) = (s, []) := by
  simp [step, hc]

theorem onRole_room (s : Server) (c : SocketId) (r : JsVal) :
    (onRole s c r).1.room = setAdd s.room c := rfl

theorem onRole_count (s : Server) (c : SocketId) (r : JsVal) :
    (roomSize (onRole s c r).1).orElse (num 0)
      = num (Int.ofNat (setAdd s.room c).length) := by
  have hne : setAdd s.room c ≠ [] := setAdd_ne_nil s.room c
  have hlen : (setAdd s.room c).length ≠ 0 := by
    intro h
    exact hne (List.length_eq_zero.mp h)
  have hemp : (setAdd s.room c).isEmpty = false := by
    cases h : setAdd s.room c with
    | nil => exact absurd h hne
    | cons a l => rfl
  have h1 : roomSize (onRole s c r).1 = num (Int.ofNat (setAdd s.room c).length) := by
    unfold roomSize
    rw [onRole_room, hemp]
    rfl
  have h2 : (num (Int.ofNat (setAdd s.room c).length)).truthy = true := by
    show (Int.ofNat (setAdd s.room c).length != 0) = true
    rw [bne_iff_ne]
    intro h
    exact hlen (Int.ofNat.inj h)
  rw [h1]
  unfold JsVal.orElse
  rw [if_pos h2]

theorem onRole_out (s : Server) (c : SocketId) (r : JsVal) :
    (onRole s c r).2 =
      [{ event := "presence",
         payload := obj [("role", r), ("count", num (Int.ofNat (setAdd s.room c).length))],
         recipients := setAdd s.room c }] := by
  have h := onRole_count s c r
  simp only [onRole, ioToRoomEmit] at h ⊢
  rw [h]
  rfl

/-! ## The state after one step, field by field -/

theorem onEvent_room (s : Server) (c : SocketId) (name : String) (arg : JsVal) :
    (onEvent s c name arg).1.room = if name = "role" then setAdd s.room c else s.room := by
  unfold onEvent
  split_ifs <;> rfl

theorem onEvent_connected (s : Server) (c : SocketId) (name : String) (arg : JsVal) :
    (onEvent s c name arg).1.connected = s.connected := by
  unfold onEvent
  split_ifs <;> rfl

theorem onEvent_nextId (s : Server) (c : SocketId) (name : String) (arg : JsVal) :
    (onEvent s c name arg).1.nextId = s.nextId := by
  unfold onEvent
  split_ifs <;> rfl

theorem onEvent_role (s : Server) (c : SocketId) (name : String) (arg : JsVal) (x : SocketId) :
    (onEvent s c name arg).1.role x
      = if name = "role" ∧ x = c then arg else s.role x := by
  unfold onEvent
  by_cases h : name = "role"
  · simp only [h, if_true, true_and]
    rfl
  · simp only [h, if_false, false_and]
    split_ifs <;> rfl

theorem step_room (s : Server) (i : Input) :
    (step s i).1.room =
      match i with
      | .connect => s.room
      | .event c name _ => if c ∈ s.connected ∧ name = "role" then setAdd s.room c else s.room
      | .disconnect c => if c ∈ s.connected then setDelete s.room c else s.room := by
  cases i with
  | connect => rfl
  | event c name arg =>
      by_cases hc : c ∈ s.connected
      · simp only [step, hc, if_true, true_and, onEvent_room]
      · simp only [step, hc, if_false, false_and]
  | disconnect c =>
      by_cases hc : c ∈ s.connected
      · simp only [step, hc, if_true]; rfl
      · simp only [step, hc, if_false]

theorem step_connected (s : Server) (i : Input) :
    (step s i).1.connected =
      match i with
      | .connect => s.connected ++ [s.nextId]
      | .event _ _ _ => s.connected
      | .disconnect c => setDelete s.connected c := by
  cases i with
  | connect => rfl
  | event c name arg =>
      by_cases hc : c ∈ s.connected
      · simp only [step, hc, if_true, onEvent_connected]
      · simp only [step, hc, if_false]
  | disconnect c =>
      by_cases hc : c ∈ s.connected
      · simp only [step, hc, if_true]; rfl
      · simp only [step, hc, if_false]
        unfold setDelete
        symm
        rw [List.filter_eq_self]
        intro a ha
        have : a ≠ c := fun h => hc (h ▸ ha)
        simpa using this

theorem step_nextId (s : Server) (i : Input) :
    (step s i).1.nextId =
      match i with
      | .connect => s.nextId + 1
      | _ => s.nextId := by
  cases i with
  | connect => rfl
  | event c name arg =>
      by_cases hc : c ∈ s.connected
      · simp only [step, hc, if_true, onEvent_nextId]
      · simp only [step, hc, if_false]
  | disconnect c =>
      by_cases hc : c ∈ s.connected
      · simp only [step, hc, if_true]; rfl
      · simp only [step, hc, if_false]

theorem step_role_field (s : Server) (i : Input) (x : SocketId) :
    (step s i).1.role x =
      match i with
      | .connect => if x = s.nextId then undefined else s.role x
      | .event c name arg =>
          if c ∈ s.connected ∧ name = "role" ∧ x = c then arg else s.role x
      | .disconnect _ => s.role x := by
  cases i with
  | connect => rfl
  | event c name arg =>
      by_cases hc : c ∈ s.connected
      · simp only [step, hc, if_true, true_and, onEvent_role]
      · simp only [step, hc, if_false, false_and]
  | disconnect c =>
      by_cases hc : c ∈ s.connected
      · simp only [step, hc, if_true]; rfl
      · simp only [step, hc, if_false]

/-- Every emission of a step goes to members of the room after the step. -/
theorem step_recipients (s : Server) (i : Input) :
    ∀ e ∈ (step s i).2, ∀ m ∈ e.recipients, m ∈ (step s i).1.room := by
  cases i with
  | connect => intro e he; simp [step] at he
  | event c name arg =>
      by_cases hc : c ∈ s.connected
      · simp only [step, hc, if_true]
        unfold onEvent
        split_ifs
        · intro e he m hm
          simp only [onRole, List.mem_singleton] at he
          subst he
          exact hm
        all_goals
          intro e he m hm
          first
            | (simp only [onWebrtcOffer, onWebrtcAnswer, onWebrtcIce, List.mem_singleton] at he
               subst he
               exact ((mem_setDelete _ _ _).1 hm).1)
            | (simp at he)
      · simp only [step, hc, if_false]
        intro e he; simp at he
  | disconnect c =>
      by_cases hc : c ∈ s.connected
      · simp only [step, hc, if_true]
        intro e he m hm
        simp only [onDisconnect, List.mem_singleton] at he
        subst he
        exact hm
      · simp only [step, hc, if_false]
        intro e he; simp at he

/-! ## Invariants -/

theorem wf_init : WF init :=
  { room_nodup := List.nodup_nil
    conn_nodup := List.nodup_nil
    room_sub := by intro c hc; cases hc
    conn_lt := by intro c hc; cases hc }

theorem wf_step (s : Server) (i : Input) (h : WF s) : WF (step s i).1 := by
  cases i with
  | connect =>
      refine ⟨?_, ?_, ?_, ?_⟩
      · rw [step_room]; exact h.room_nodup
      · rw [step_connected]
        show (s.connected ++ [s.nextId]).Nodup
        rw [List.nodup_append]
        refine ⟨h.conn_nodup, List.nodup_singleton _, ?_⟩
        intro a ha hb
        simp only [List.mem_singleton] at hb
        subst hb
        exact Nat.lt_irrefl _ (h.conn_lt _ ha)
      · intro c hc
        rw [step_room] at hc
        rw [step_connected]
        exact List.mem_append_left _ (h.room_sub c hc)
      · intro c hc
        rw [step_connected] at hc
        rw [step_nextId]
        show c < s.nextId + 1
        rcases List.mem_append.1 hc with hc | hc
        · exact Nat.lt_succ_of_lt (h.conn_lt c hc)
        · simp only [List.mem_singleton] at hc
          subst hc
          exact Nat.lt_succ_self _
  | event c name arg =>
      refine ⟨?_, ?_, ?_, ?_⟩
      · rw [step_room]
        show (if c ∈ s.connected ∧ name = "role" then setAdd s.room c else s.room).Nodup
        split_ifs
        · exact nodup_setAdd _ _ h.room_nodup
        · exact h.room_nodup
      · rw [step_connected]; exact h.conn_nodup
      · intro m hm
        rw [step_room] at hm
        rw [step_connected]
        show m ∈ s.connected
        change m ∈ (if c ∈ s.connected ∧ name = "role" then setAdd s.room c else s.room) at hm
        split_ifs at hm with hcn
        · rcases (mem_setAdd _ _ _).1 hm with hm | rfl
          · exact h.room_sub m hm
          · exact hcn.1
        · exact h.room_sub m hm
      · intro m hm
        rw [step_connected] at hm
        rw [step_nextId]
        exact h.conn_lt m hm
  | disconnect c =>
      refine ⟨?_, ?_, ?_, ?_⟩
      · rw [step_room]
        show (if c ∈ s.connected then setDelete s.room c else s.room).Nodup
        split_ifs
        · exact nodup_setDelete _ _ h.room_nodup
        · exact h.room_nodup
      · rw [step_connected]; exact nodup_setDelete _ _ h.conn_nodup
      · intro m hm
        rw [step_room] at hm
        rw [step_connected]
        show m ∈ setDelete s.connected c
        change m ∈ (if c ∈ s.connected then setDelete s.room c else s.room) at hm
        rw [mem_setDelete]
        split_ifs at hm with hcn
        · rw [mem_setDelete] at hm
          exact ⟨h.room_sub m hm.1, hm.2⟩
        · refine ⟨h.room_sub m hm, ?_⟩
          intro hmc
          exact hcn (hmc ▸ h.room_sub m hm)
      · intro m hm
        rw [step_connected] at hm
        rw [step_nextId]
        exact h.conn_lt m ((mem_setDelete _ _ _).1 hm).1

theorem wf_run (s : Server) (tr : List Input) (h : WF s) : WF (run s tr).1 := by
  induction tr generalizing s with
  | nil => exact h
  | cons i rest ih => exact ih (step s i).1 (wf_step s i h)

theorem gone_step (s : Server) (i : Input) (x : SocketId) (h : Gone s x) :
    Gone (step s i).1 x := by
  obtain ⟨hlt, hconn, hroom⟩ := h
  cases i with
  | connect =>
      refine ⟨?_, ?_, ?_⟩
      · rw [step_nextId]; exact Nat.lt_succ_of_lt hlt
      · rw [step_connected]
        intro hx
        rcases List.mem_append.1 hx with hx | hx
        · exact hconn hx
        · simp only [List.mem_singleton] at hx
          exact Nat.lt_irrefl _ (hx ▸ hlt)
      · rw [step_room]; exact hroom
  | event c name arg =>
      refine ⟨?_, ?_, ?_⟩
      · rw [step_nextId]; exact hlt
      · rw [step_connected]; exact hconn
      · rw [step_room]
        show x ∉ (if c ∈ s.connected ∧ name = "role" then setAdd s.room c else s.room)
        split_ifs with hcn
        · intro hx
          rcases (mem_setAdd _ _ _).1 hx with hx | rfl
          · exact hroom hx
          · exact hconn hcn.1
        · exact hroom
  | disconnect c =>
      refine ⟨?_, ?_, ?_⟩
      · rw [step_nextId]; exact hlt
      · rw [step_connected]
        intro hx
        exact hconn ((mem_setDelete _ _ _).1 hx).1
      · rw [step_room]
        show x ∉ (if c ∈ s.connected then setDelete s.room c else s.room)
        split_ifs
        · intro hx
          exact hroom ((mem_setDelete _ _ _).1 hx).1
        · exact hroom

theorem gone_run (s : Server) (tr : List Input) (x : SocketId) (h : Gone s x) :
    Gone (run s tr).1 x := by
  induction tr generalizing s with
  | nil => exact h
  | cons i rest ih => exact ih (step s i).1 (gone_step s i x h)

/-- A closed socket is among the recipients of no later emission. -/
theorem gone_silent (s : Server) (tr : List Input) (x : SocketId) (h : Gone s x) :
    ∀ e ∈ (run s tr).2, x ∉ e.recipients := by
  induction tr generalizing s with
  | nil => intro e he; cases he
  | cons i rest ih =>
      intro e he
      show x ∉ e.recipients
      change e ∈ (step s i).2 ++ (run (step s i).1 rest).2 at he
      rcases List.mem_append.1 he with he | he
      · intro hx
        exact (gone_step s i x h).2.2 (step_recipients s i e he x hx)
      · exact ih (step s i).1 (gone_step s i x h) e he

theorem gone_of_disconnect (s : Server) (x : SocketId) (h : WF s) (hx : x ∈ s.connected) :
    Gone (step s (.disconnect x)).1 x := by
  refine ⟨?_, ?_, ?_⟩
  · rw [step_nextId]; exact h.conn_lt x hx
  · rw [step_connected]
    intro hm
    exact ((mem_setDelete _ _ _).1 hm).2 rfl
  · rw [step_room]
    show x ∉ (if x ∈ s.connected then setDelete s.room x else s.room)
    rw [if_pos hx]
    intro hm
    exact ((mem_setDelete _ _ _).1 hm).2 rfl

theorem run_append (s : Server) (a b : List Input) :
    run s (a ++ b) = ((run (run s a).1 b).1, (run s a).2 ++ (run (run s a).1 b).2) := by
  induction a generalizing s with
  | nil => simp [run]
  | cons i rest ih =>
      show ((run (step s i).1 (rest ++ b)).1, (step s i).2 ++ (run (step s i).1 (rest ++ b)).2) = _
      rw [ih]
      simp [run, List.append_assoc]

theorem run_snoc_state (s : Server) (tr : List Input) (i : Input) :
    (run s (tr ++ [i])).1 = (step (run s tr).1 i).1 := by
  rw [run_append]
  rfl

/-! ## The history of a trace, one input at a time -/

theorem lastAnnounced_snoc (s : Server) (tr : List Input) (i : Input) (c : SocketId) :
    lastAnnounced s (tr ++ [i]) c =
      match roleArg (run s tr).1 c i with
      | some r => some r
      | none => lastAnnounced s tr c := by
  induction tr generalizing s with
  | nil =>
      show (match lastAnnounced (step s i).1 [] c with
            | some r => some r
            | none => roleArg s c i) = _
      show (match (none : Option JsVal) with
            | some r => some r
            | none => roleArg s c i) =
           (match roleArg s c i with
            | some r => some r
            | none => none)
      cases roleArg s c i <;> rfl
  | cons j rest ih =>
      show (match lastAnnounced (step s j).1 (rest ++ [i]) c with
            | some r => some r
            | none => roleArg s c j) =
           (match roleArg (run (step s j).1 rest).1 c i with
            | some r => some r
            | none =>
                match lastAnnounced (step s j).1 rest c with
                | some r => some r
                | none => roleArg s c j)
      rw [ih]
      cases roleArg (run (step s j).1 rest).1 c i <;> rfl

theorem hasDisconnected_snoc (s : Server) (tr : List Input) (i : Input) (c : SocketId) :
    hasDisconnected s (tr ++ [i]) c = (hasDisconnected s tr c || closes (run s tr).1 c i) := by
  induction tr generalizing s with
  | nil =>
      show (closes s c i || false) = (false || closes s c i)
      cases closes s c i <;> rfl
  | cons j rest ih =>
      show (closes s c j || hasDisconnected (step s j).1 (rest ++ [i]) c) =
           ((closes s c j || hasDisconnected (step s j).1 rest c)
              || closes (run (step s j).1 rest).1 c i)
      rw [ih, Bool.or_assoc]


theorem hasAnnounced_snoc (s : Server) (tr : List Input) (i : Input) (c : SocketId) :
    hasAnnounced s (tr ++ [i]) c =
      ((roleArg (run s tr).1 c i).isSome || hasAnnounced s tr c) := by
  unfold hasAnnounced
  rw [lastAnnounced_snoc]
  cases roleArg (run s tr).1 c i <;> rfl

theorem roleArg_isSome (s : Server) (c : SocketId) (i : Input) :
    (roleArg s c i).isSome = true ↔
      ∃ arg, i = .event c "role" arg ∧ c ∈ s.connected := by
  cases i with
  | connect => simp [roleArg]
  | event d name arg =>
      show (if d = c ∧ name = "role" ∧ c ∈ s.connected then some arg else none).isSome = true ↔ _
      by_cases h : d = c ∧ name = "role" ∧ c ∈ s.connected
      · rw [if_pos h]
        obtain ⟨rfl, rfl, hc⟩ := h
        simp [hc]
      · rw [if_neg h]
        simp only [Option.isSome_none, Bool.false_eq_true, false_iff]
        rintro ⟨arg2, heq, hc⟩
        cases heq
        exact h ⟨rfl, rfl, hc⟩
  | disconnect d => simp [roleArg]

theorem closes_iff (s : Server) (c : SocketId) (i : Input) :
    closes s c i = true ↔ (i = .disconnect c ∧ c ∈ s.connected) := by
  cases i with
  | connect => simp [closes]
  | event d name arg => simp [closes]
  | disconnect d =>
      simp only [closes, decide_eq_true_eq, Input.disconnect.injEq]

theorem hist_nil : Hist [] :=
  { wf := wf_init
    room_iff := by
      intro c
      constructor
      · intro h; cases h
      · intro h; cases h.2
    closed_iff := by
      intro c
      constructor
      · intro h; cases h
      · intro h; exact absurd h.1 (Nat.not_lt_zero c)
    announced_lt := by intro c h; cases h
    role_eq := by intro c; rfl }

theorem hasAnnounced_snoc_iff (s : Server) (tr : List Input) (i : Input) (c : SocketId) :
    hasAnnounced s (tr ++ [i]) c = true ↔
      ((∃ arg, i = .event c "role" arg ∧ c ∈ (run s tr).1.connected)
        ∨ hasAnnounced s tr c = true) := by
  rw [hasAnnounced_snoc, Bool.or_eq_true, roleArg_isSome]

theorem hasDisconnected_snoc_iff (s : Server) (tr : List Input) (i : Input) (c : SocketId) :
    hasDisconnected s (tr ++ [i]) c = true ↔
      (hasDisconnected s tr c = true ∨ (i = .disconnect c ∧ c ∈ (run s tr).1.connected)) := by
  rw [hasDisconnected_snoc, Bool.or_eq_true, closes_iff]

theorem hist_snoc (tr : List Input) (i : Input) (h : Hist tr) : Hist (tr ++ [i]) := by
  obtain ⟨hwf, hroom, hclosed, hann, hrole⟩ := h
  have hs : (run init (tr ++ [i])).1 = (step (run init tr).1 i).1 := run_snoc_state _ _ _
  refine ⟨?_, ?_, ?_, ?_, ?_⟩
  · rw [hs]; exact wf_step _ _ hwf
  · intro c
    rw [hs, step_room, step_connected, hasAnnounced_snoc_iff]
    cases i with
    | connect =>
        simp only [reduceCtorEq, false_and, exists_false, false_or, List.mem_append, List.mem_singleton]
        constructor
        · intro hc
          exact ⟨((hroom c).1 hc).1, Or.inl ((hroom c).1 hc).2⟩
        · rintro ⟨ha, hc | hc⟩
          · exact (hroom c).2 ⟨ha, hc⟩
          · exact absurd (hann c ha) (by rw [hc]; exact Nat.lt_irrefl _)
    | event d name arg =>
        simp only [Input.event.injEq]
        by_cases hcond : d ∈ (run init tr).1.connected ∧ name = "role"
        · rw [if_pos hcond, mem_setAdd]
          constructor
          · rintro (hc | rfl)
            · exact ⟨Or.inr ((hroom c).1 hc).1, ((hroom c).1 hc).2⟩
            · exact ⟨Or.inl ⟨arg, ⟨rfl, hcond.2, rfl⟩, hcond.1⟩, hcond.1⟩
          · rintro ⟨⟨arg2, ⟨hd, _, _⟩, _⟩ | ha, hc⟩
            · exact Or.inr hd.symm
            · exact Or.inl ((hroom c).2 ⟨ha, hc⟩)
        · rw [if_neg hcond]
          constructor
          · intro hc
            exact ⟨Or.inr ((hroom c).1 hc).1, ((hroom c).1 hc).2⟩
          · rintro ⟨⟨arg2, ⟨hd, hn, _⟩, hc2⟩ | ha, hc⟩
            · exact absurd ⟨hd ▸ hc2, hn⟩ hcond
            · exact (hroom c).2 ⟨ha, hc⟩
    | disconnect d =>
        simp only [reduceCtorEq, false_and, exists_false, false_or, mem_setDelete]
        by_cases hd : d ∈ (run init tr).1.connected
        · rw [if_pos hd, mem_setDelete]
          constructor
          · rintro ⟨hc, hne⟩
            exact ⟨((hroom c).1 hc).1, ((hroom c).1 hc).2, hne⟩
          · rintro ⟨ha, hc, hne⟩
            exact ⟨(hroom c).2 ⟨ha, hc⟩, hne⟩
        · rw [if_neg hd]
          constructor
          · intro hc
            refine ⟨((hroom c).1 hc).1, ((hroom c).1 hc).2, ?_⟩
            intro hcd
            exact hd (hcd ▸ ((hroom c).1 hc).2)
          · rintro ⟨ha, hc, _⟩
            exact (hroom c).2 ⟨ha, hc⟩
  · intro c
    rw [hs, step_nextId, step_connected, hasDisconnected_snoc_iff, hclosed c]
    cases i with
    | connect =>
        simp only [reduceCtorEq, false_and, or_false, List.mem_append, List.mem_singleton, not_or]
        constructor
        · rintro ⟨hlt, hc⟩
          exact ⟨Nat.lt_succ_of_lt hlt, hc, Nat.ne_of_lt hlt⟩
        · rintro ⟨hlt, hc, hne⟩
          exact ⟨Nat.lt_of_le_of_ne (Nat.le_of_lt_succ hlt) hne, hc⟩
    | event d name arg =>
        simp only [reduceCtorEq, false_and, or_false]
    | disconnect d =>
        simp only [Input.disconnect.injEq, mem_setDelete]
        constructor
        · rintro (⟨hlt, hc⟩ | ⟨rfl, hc⟩)
          · exact ⟨hlt, fun hx => hc hx.1⟩
          · exact ⟨hwf.conn_lt _ hc, fun hx => hx.2 rfl⟩
        · rintro ⟨hlt, hc⟩
          by_cases hcc : c ∈ (run init tr).1.connected
          · right
            refine ⟨?_, hcc⟩
            by_contra hne
            exact hc ⟨hcc, fun h => hne h.symm⟩
          · exact Or.inl ⟨hlt, hcc⟩
  · intro c
    rw [hs, step_nextId, hasAnnounced_snoc_iff]
    rintro (⟨arg, rfl, hc⟩ | ha)
    · exact hwf.conn_lt _ hc
    · cases i with
      | connect => exact Nat.lt_succ_of_lt (hann c ha)
      | event d name arg => exact hann c ha
      | disconnect d => exact hann c ha
  · intro c
    rw [hs, step_role_field, lastAnnounced_snoc]
    cases i with
    | connect =>
        show (if c = (run init tr).1.nextId then undefined else (run init tr).1.role c)
              = (lastAnnounced init tr c).getD undefined
        split_ifs with hc
        · cases hl : lastAnnounced init tr c with
          | none => rfl
          | some r =>
              have : hasAnnounced init tr c = true := by
                unfold hasAnnounced; rw [hl]; rfl
              exact absurd (hann c this) (by rw [hc]; exact Nat.lt_irrefl _)
        · exact hrole c
    | event d name arg =>
        show (if d ∈ (run init tr).1.connected ∧ name = "role" ∧ c = d then arg
                else (run init tr).1.role c)
              = (match (if d = c ∧ name = "role" ∧ c ∈ (run init tr).1.connected
                          then some arg else none) with
                 | some r => some r
                 | none => lastAnnounced init tr c).getD undefined
        by_cases hcond : d = c ∧ name = "role" ∧ c ∈ (run init tr).1.connected
        · rw [if_pos hcond]
          obtain ⟨rfl, hn, hc⟩ := hcond
          rw [if_pos ⟨hc, hn, rfl⟩]
          rfl
        · rw [if_neg hcond]
          have : ¬ (d ∈ (run init tr).1.connected ∧ name = "role" ∧ c = d) := by
            rintro ⟨hd, hn, hcd⟩
            exact hcond ⟨hcd.symm, hn, hcd ▸ hd⟩
          rw [if_neg this]
          exact hrole c
    | disconnect d => exact hrole c

theorem hist_all (tr : List Input) : Hist tr := by
  induction tr using List.reverseRecOn with
  | nil => exact hist_nil
  | append_singleton l a ih => exact hist_snoc l a ih

theorem deliveries_singleton (e : Emission) :
    deliveries [e] = e.recipients.map (fun r => (r, e.event, e.payload)) := by
  simp [deliveries]

/-! ## The claims -/

/-- C1: a relay event (webrtc-offer, webrtc-answer or webrtc-ice) sent by a
connected socket, whether it is in the room or not, is emitted exactly once, and
the sockets that receive it are exactly the members of the room other than the
sender: the sender is not among them, every other member is, nobody outside the
room is, and nobody receives it twice when the room is a set. -/
theorem C1_relay_fanout (s : Server) (c : SocketId) (name : String) (msg : JsVal)
    (hc : c ∈ s.connected) (hn : IsRelayName name) :
    ∃ e, (step s (.event c name msg)).2 = [e] ∧
      (∀ m, m ∈ e.recipients ↔ (m ∈ s.room ∧ m ≠ c)) ∧
      c ∉ e.recipients ∧
      (s.room.Nodup → e.recipients.Nodup) := by
  refine ⟨socketToRoomEmit s c name msg, ?_, ?_, ?_, ?_⟩
  · rw [step_relay s c name msg hc hn]
  · intro m
    exact mem_setDelete s.room c m
  · intro h
    exact ((mem_setDelete s.room c c).1 h).2 rfl
  · intro h
    exact nodup_setDelete s.room c h

/-- C1 at the room with members A, B, C (0, 1, 2) and sender A: the recipients
of the offer are exactly B and C. -/
theorem C1_relay_fanout_witness :
    (0 ∈ roomABC.connected ∧ IsRelayName "webrtc-offer") ∧
    roomABC.room = [0, 1, 2] ∧
    (∃ e, (step roomABC (.event 0 "webrtc-offer" (str "sdp"))).2 = [e] ∧
      (∀ m, m ∈ e.recipients ↔ (m ∈ roomABC.room ∧ m ≠ 0)) ∧
      0 ∉ e.recipients ∧
      (roomABC.room.Nodup → e.recipients.Nodup)) ∧
    (step roomABC (.event 0 "webrtc-offer" (str "sdp"))).2.map Emission.recipients
      = [[1, 2]] :=
  ⟨⟨by decide, Or.inl rfl⟩, by decide,
   C1_relay_fanout roomABC 0 "webrtc-offer" (str "sdp") (by decide) (Or.inl rfl),
   by decide⟩

/-- C2: for each of the three relay events and every payload, the relay makes
one emission, whatever the room holds; it carries the name of the inbound event
and the payload as sent, so does every message put on the wire, the state is not
touched, and with no member other than the sender nothing is put on the wire. -/
theorem C2_relay_passthrough (s : Server) (c : SocketId) (name : String) (msg : JsVal)
    (hc : c ∈ s.connected) (hn : IsRelayName name) :
    (∃ e, (step s (.event c name msg)).2 = [e] ∧ e.event = name ∧ e.payload = msg) ∧
    (∀ d ∈ deliveries (step s (.event c name msg)).2, d.2.1 = name ∧ d.2.2 = msg) ∧
    ((∀ m ∈ s.room, m = c) → deliveries (step s (.event c name msg)).2 = []) := by
  rw [step_relay s c name msg hc hn]
  refine ⟨⟨_, rfl, rfl, rfl⟩, ?_, ?_⟩
  · intro d hd
    rw [deliveries_singleton] at hd
    obtain ⟨r, _, rfl⟩ := List.mem_map.1 hd
    exact ⟨rfl, rfl⟩
  · intro hall
    rw [deliveries_singleton]
    have : (socketToRoomEmit s c name msg).recipients = [] := by
      show setDelete s.room c = []
      rw [List.eq_nil_iff_forall_not_mem]
      intro m hm
      have := (mem_setDelete s.room c m).1 hm
      exact this.2 (hall m this.1)
    rw [this]
    rfl

/-- C2 at the room with members A, B, C and sender A, and at the room whose
only member is the sender A, where nothing is put on the wire. -/
theorem C2_relay_passthrough_witness :
    (0 ∈ roomABC.connected ∧ IsRelayName "webrtc-ice") ∧
    ((∃ e, (step roomABC (.event 0 "webrtc-ice" (obj [("candidate", str "c")]))).2 = [e] ∧
        e.event = "webrtc-ice" ∧ e.payload = obj [("candidate", str "c")]) ∧
     (∀ d ∈ deliveries (step roomABC (.event 0 "webrtc-ice" (obj [("candidate", str "c")]))).2,
        d.2.1 = "webrtc-ice" ∧ d.2.2 = obj [("candidate", str "c")]) ∧
     ((∀ m ∈ roomABC.room, m = 0) →
        deliveries (step roomABC (.event 0 "webrtc-ice" (obj [("candidate", str "c")]))).2
          = [])) ∧
    (0 ∈ roomA.connected ∧ IsRelayName "webrtc-offer" ∧ (∀ m ∈ roomA.room, m = 0)) ∧
    deliveries (step roomA (.event 0 "webrtc-offer" (str "sdp"))).2 = [] :=
  ⟨⟨by decide, Or.inr (Or.inr rfl)⟩,
   C2_relay_passthrough roomABC 0 "webrtc-ice" (obj [("candidate", str "c")]) (by decide)
     (Or.inr (Or.inr rfl)),
   ⟨by decide, Or.inl rfl, by decide⟩,
   (C2_relay_passthrough roomA 0 "webrtc-offer" (str "sdp") (by decide) (Or.inl rfl)).2.2
     (by decide)⟩

/-- C3: after every trace from the empty server, a role announcement of a
connected socket emits one presence event; it goes to every member of the room
after the announcer has been added, the announcer included, its role is the
announced role and its count is the size of that member set.  And when every
socket that announced a role in the trace has closed, the room is empty. -/
theorem C3_presence_count (tr : List Input) :
    (∀ (c : SocketId) (r : JsVal), c ∈ (run init tr).1.connected →
      (step (run init tr).1 (.event c "role" r)).2 =
        [{ event := "presence",
           payload := obj [("role", r),
             ("count", num (Int.ofNat (step (run init tr).1 (.event c "role" r)).1.room.length))],
           recipients := (step (run init tr).1 (.event c "role" r)).1.room }] ∧
      (∀ m, m ∈ (step (run init tr).1 (.event c "role" r)).1.room ↔
        (m ∈ (run init tr).1.room ∨ m = c)) ∧
      (step (run init tr).1 (.event c "role" r)).1.room.Nodup) ∧
    ((∀ c, hasAnnounced init tr c = true → hasDisconnected init tr c = true) →
      (run init tr).1.room.length = 0) := by
  constructor
  · intro c r hc
    rw [step_role _ c r hc]
    refine ⟨?_, ?_, ?_⟩
    · rw [onRole_out, onRole_room]
    · intro m
      rw [onRole_room]
      exact mem_setAdd _ _ _
    · rw [onRole_room]
      exact nodup_setAdd _ _ (hist_all tr).wf.room_nodup
  · intro hall
    rw [List.length_eq_zero, List.eq_nil_iff_forall_not_mem]
    intro m hm
    have h1 := ((hist_all tr).room_iff m).1 hm
    have h2 := ((hist_all tr).closed_iff m).1 (hall m h1.1)
    exact h2.2 h1.2

/-- C3 on the trace: A and B connect, A announces, B announces, A closes, B
closes; then B, closed, is not connected, so the first part is shown at the
trace before the closings. -/
theorem C3_presence_count_witness :
    (1 ∈ (run init [.connect, .connect, .event 0 "role" (str "broadcaster")]).1.connected ∧
     (step (run init [.connect, .connect, .event 0 "role" (str "broadcaster")]).1
        (.event 1 "role" (str "listener"))).2 =
        [{ event := "presence",
           payload := obj [("role", str "listener"), ("count", num 2)],
           recipients := [0, 1] }]) ∧
    ((∀ c, hasAnnounced init
            [.connect, .connect, .event 0 "role" (str "broadcaster"),
             .event 1 "role" (str "listener"), .disconnect 0, .disconnect 1] c = true →
          hasDisconnected init
            [.connect, .connect, .event 0 "role" (str "broadcaster"),
             .event 1 "role" (str "listener"), .disconnect 0, .disconnect 1] c = true) ∧
     (run init [.connect, .connect, .event 0 "role" (str "broadcaster"),
                .event 1 "role" (str "listener"), .disconnect 0, .disconnect 1]).1.room.length
        = 0) := by
  refine ⟨⟨by decide, ?_⟩, ?_⟩
  · exact ((C3_presence_count [.connect, .connect, .event 0 "role" (str "broadcaster")]).1
      1 (str "listener") (by decide)).1
  · have hall : ∀ c, hasAnnounced init
            [.connect, .connect, .event 0 "role" (str "broadcaster"),
             .event 1 "role" (str "listener"), .disconnect 0, .disconnect 1] c = true →
          hasDisconnected init
            [.connect, .connect, .event 0 "role" (str "broadcaster"),
             .event 1 "role" (str "listener"), .disconnect 0, .disconnect 1] c = true := by
      intro c hc
      have hlt : c < 2 := (hist_all _).announced_lt c hc
      match c, hlt with
      | 0, _ => rfl
      | 1, _ => rfl
      | n + 2, h => exact absurd h (Nat.not_lt.2 (Nat.le_add_left 2 n))
    exact ⟨hall, (C3_presence_count _).2 hall⟩

/-- C4 as stated fails: a socket that announced the empty string as its role
and then closes is reported with the role "unknown", not with the empty string,
although it did announce a role. -/
theorem C4_empty_role_counterexample :
    0 ∈ (run init [.connect, .event 0 "role" (str "")]).1.connected ∧
    lastAnnounced init [.connect, .event 0 "role" (str "")] 0 = some (str "") ∧
    (step (run init [.connect, .event 0 "role" (str "")]).1 (.disconnect 0)).2 =
      [{ event := "peer-disconnected", payload := obj [("role", str "unknown")],
         recipients := [] }] ∧
    ¬ DisconnectCarriesLastRole [.connect, .event 0 "role" (str "")] 0 := by
  refine ⟨by decide, rfl, rfl, ?_⟩
  intro h
  have h1 := (h { event := "peer-disconnected", payload := obj [("role", str "unknown")],
                  recipients := [] } (List.mem_singleton.2 rfl)).1 (str "") rfl
  simp at h1

/-- C4, amended: when a connected socket closes, one peer-disconnected event
goes to the remaining members of the room; its role is the role the socket
announced last when that value is truthy, and "unknown" when the socket never
announced a role or the last announced value is falsy.  So "unknown" is carried
exactly when no role was announced, the last one is falsy, or it is "unknown" itself. -/
theorem C4_disconnect_role (tr : List Input) (c : SocketId)
    (hc : c ∈ (run init tr).1.connected) :
    ∃ v, (step (run init tr).1 (.disconnect c)).2 =
        [{ event := "peer-disconnected", payload := obj [("role", v)],
           recipients := setDelete (run init tr).1.room c }] ∧
      (match lastAnnounced init tr c with
        | none => v = str "unknown"
        | some r => if r.truthy = true then v = r else v = str "unknown") ∧
      (v = str "unknown" ↔
        (lastAnnounced init tr c = none ∨
         ∃ r, lastAnnounced init tr c = some r ∧ (r.truthy = false ∨ r = str "unknown"))) := by
  refine ⟨((run init tr).1.role c).orElse (str "unknown"), ?_, ?_, ?_⟩
  · rw [step_disconnect _ c hc]
    rfl
  · rw [(hist_all tr).role_eq c]
    cases lastAnnounced init tr c with
    | none => rfl
    | some r =>
        show if r.truthy = true then r.orElse (str "unknown") = r
             else r.orElse (str "unknown") = str "unknown"
        unfold JsVal.orElse
        by_cases ht : r.truthy = true
        · rw [if_pos ht, if_pos ht]
        · rw [if_neg ht, if_neg ht]
  · rw [(hist_all tr).role_eq c]
    cases lastAnnounced init tr c with
    | none =>
        constructor
        · intro _; exact Or.inl rfl
        · intro _; rfl
    | some r =>
        show r.orElse (str "unknown") = str "unknown" ↔ _
        unfold JsVal.orElse
        by_cases ht : r.truthy = true
        · rw [if_pos ht]
          constructor
          · intro h; exact Or.inr ⟨r, rfl, Or.inr h⟩
          · rintro (h | ⟨r2, h, h2 | h2⟩)
            · cases h
            · cases h; rw [ht] at h2; cases h2
            · cases h; exact h2
        · rw [if_neg ht]
          constructor
          · intro _
            refine Or.inr ⟨r, rfl, Or.inl ?_⟩
            cases hr : r.truthy
            · rfl
            · exact absurd hr ht
          · intro _; rfl

/-- C4, amended, on three sockets: one that announced "listener", one that
announced the empty string, one that announced nothing. -/
theorem C4_disconnect_role_witness :
    (1 ∈ roomABC.connected ∧
     ∃ v, (step (run init [.connect, .connect, .connect,
                    .event 0 "role" (str "broadcaster"),
                    .event 1 "role" (str "listener"),
                    .event 2 "role" (str "listener")]).1 (.disconnect 1)).2 =
        [{ event := "peer-disconnected", payload := obj [("role", v)],
           recipients := [0, 2] }] ∧ v = str "listener") ∧
    (step (run init [.connect, .connect, .event 0 "role" (str "")]).1 (.disconnect 0)).2 =
        [{ event := "peer-disconnected", payload := obj [("role", str "unknown")],
           recipients := [] }] ∧
    (step (run init [.connect, .connect, .event 0 "role" (str "")]).1 (.disconnect 1)).2 =
        [{ event := "peer-disconnected", payload := obj [("role", str "unknown")],
           recipients := [0] }] := by
  refine ⟨⟨by decide, ?_⟩, rfl, rfl⟩
  obtain ⟨v, h1, h2, _⟩ := C4_disconnect_role
    [.connect, .connect, .connect, .event 0 "role" (str "broadcaster"),
     .event 1 "role" (str "listener"), .event 2 "role" (str "listener")] 1 (by decide)
  exact ⟨v, h1, h2⟩

/-- C5: in every state whose room is a set, announcing a role twice in a row
on a connected socket `c`, with the same or different roles, leaves the member
set after the second announcement equal to the one after the first; `c` is in
it once; each announcement emits one presence event, two in all; both report the
same count, the size of that member set, which exceeds the size before the
first announcement by at most one; and the stored role of `c` is the second. -/
theorem C5_reannounce (s : Server) (c : SocketId) (r1 r2 : JsVal)
    (hc : c ∈ s.connected) (hn : s.room.Nodup) :
    (step (step s (.event c "role" r1)).1 (.event c "role" r2)).1.room
        = (step s (.event c "role" r1)).1.room ∧
    (step s (.event c "role" r1)).1.room.count c = 1 ∧
    (∃ n : Nat,
      (step s (.event c "role" r1)).2 =
        [{ event := "presence", payload := obj [("role", r1), ("count", num (Int.ofNat n))],
           recipients := (step s (.event c "role" r1)).1.room }] ∧
      (step (step s (.event c "role" r1)).1 (.event c "role" r2)).2 =
        [{ event := "presence", payload := obj [("role", r2), ("count", num (Int.ofNat n))],
           recipients := (step s (.event c "role" r1)).1.room }] ∧
      n = (step s (.event c "role" r1)).1.room.length ∧
      s.room.length ≤ n ∧ n ≤ s.room.length + 1) ∧
    (step (step s (.event c "role" r1)).1 (.event c "role" r2)).1.role c = r2 ∧
    ((step s (.event c "role" r1)).2
      ++ (step (step s (.event c "role" r1)).1 (.event c "role" r2)).2).length = 2 := by
  have hc1 : c ∈ (step s (.event c "role" r1)).1.connected := by
    rw [step_connected]; exact hc
  have hroom1 : (step s (.event c "role" r1)).1.room = setAdd s.room c := by
    rw [step_role s c r1 hc, onRole_room]
  have hroom2 : (step (step s (.event c "role" r1)).1 (.event c "role" r2)).1.room
      = setAdd s.room c := by
    rw [step_role _ c r2 hc1, onRole_room, hroom1, setAdd_idem]
  have hout1 : (step s (.event c "role" r1)).2 =
      [{ event := "presence",
         payload := obj [("role", r1), ("count", num (Int.ofNat (setAdd s.room c).length))],
         recipients := setAdd s.room c }] := by
    rw [step_role s c r1 hc, onRole_out]
  have hout2 : (step (step s (.event c "role" r1)).1 (.event c "role" r2)).2 =
      [{ event := "presence",
         payload := obj [("role", r2), ("count", num (Int.ofNat (setAdd s.room c).length))],
         recipients := setAdd s.room c }] := by
    rw [step_role _ c r2 hc1, onRole_out, hroom1, setAdd_idem]
  refine ⟨?_, ?_, ?_, ?_, ?_⟩
  · rw [hroom2, hroom1]
  · rw [hroom1]
    exact List.count_eq_one_of_mem (nodup_setAdd _ _ hn) ((mem_setAdd _ _ _).2 (Or.inr rfl))
  · refine ⟨(setAdd s.room c).length, ?_, ?_, ?_, ?_, ?_⟩
    · rw [hout1, hroom1]
    · rw [hout2, hroom1]
    · rw [hroom1]
    · exact (length_setAdd_le s.room c).1
    · exact (length_setAdd_le s.room c).2
  · rw [step_role_field]
    show (if c ∈ (step s (.event c "role" r1)).1.connected ∧ "role" = "role" ∧ c = c then r2
          else (step s (.event c "role" r1)).1.role c) = r2
    rw [if_pos ⟨hc1, rfl, rfl⟩]
  · rw [hout1, hout2]
    rfl

/-- C5 on socket B (1) joining the room of A: "listener" announced twice. -/
theorem C5_reannounce_witness :
    (1 ∈ (run init [.connect, .connect, .event 0 "role" (str "broadcaster")]).1.connected ∧
     (run init [.connect, .connect, .event 0 "role" (str "broadcaster")]).1.room.Nodup) ∧
    (step (step (run init [.connect, .connect, .event 0 "role" (str "broadcaster")]).1
        (.event 1 "role" (str "listener"))).1 (.event 1 "role" (str "listener"))).1.room
      = [0, 1] ∧
    (step (step (run init [.connect, .connect, .event 0 "role" (str "broadcaster")]).1
        (.event 1 "role" (str "listener"))).1 (.event 1 "role" (str "listener"))).2
      = [{ event := "presence", payload := obj [("role", str "listener"), ("count", num 2)],
           recipients := [0, 1] }] :=
  ⟨⟨by decide, by decide⟩,
   (C5_reannounce (run init [.connect, .connect, .event 0 "role" (str "broadcaster")]).1
      1 (str "listener") (str "listener") (by decide) (by decide)).1,
   rfl⟩

/-- C6: after every trace of connect, event and close inputs from the empty
server, a socket is in the room exactly when it has announced a role at least
once and has not closed; and a relay event of any socket leaves the whole state,
the member set and every stored role, as it was. -/
theorem C6_membership (tr : List Input) (c : SocketId) :
    (c ∈ (run init tr).1.room ↔
      (hasAnnounced init tr c = true ∧ hasDisconnected init tr c = false)) ∧
    (∀ (d : SocketId) (name : String) (msg : JsVal), IsRelayName name →
      (step (run init tr).1 (.event d name msg)).1 = (run init tr).1) := by
  constructor
  · rw [(hist_all tr).room_iff c]
    constructor
    · rintro ⟨ha, hcc⟩
      refine ⟨ha, ?_⟩
      cases hd : hasDisconnected init tr c
      · rfl
      · exact absurd hcc (((hist_all tr).closed_iff c).1 hd).2
    · rintro ⟨ha, hd⟩
      refine ⟨ha, ?_⟩
      by_contra hcc
      have := ((hist_all tr).closed_iff c).2 ⟨(hist_all tr).announced_lt c ha, hcc⟩
      rw [hd] at this
      cases this
  · intro d name msg hn
    by_cases hd : d ∈ (run init tr).1.connected
    · rw [step_relay _ d name msg hd hn]
    · simp only [step, hd, if_false]

/-- C6 on the scenario trace, where A is in the room and B, closed, is not. -/
theorem C6_membership_witness :
    IsRelayName "webrtc-answer" ∧
    (0 ∈ (run init scenario).1.room ↔
      (hasAnnounced init scenario 0 = true ∧ hasDisconnected init scenario 0 = false)) ∧
    (step (run init scenario).1 (.event 0 "webrtc-answer" (str "sdp"))).1
      = (run init scenario).1 ∧
    hasAnnounced init scenario 0 = true ∧ hasDisconnected init scenario 0 = false ∧
    hasAnnounced init scenario 1 = true ∧ hasDisconnected init scenario 1 = true ∧
    (run init scenario).1.room = [0] :=
  ⟨Or.inr (Or.inl rfl), (C6_membership scenario 0).1,
   (C6_membership scenario 0).2 0 "webrtc-answer" (str "sdp") (Or.inr (Or.inl rfl)),
   rfl, rfl, rfl, rfl, rfl⟩

/-- C7: when a connected socket `x` closes after any trace, exactly one
peer-disconnected event is emitted; it goes to the members that remain and not
to `x`; whatever follows, no later emission (relay, presence or
peer-disconnected) has `x` among its recipients, and a further closing of `x`
emits nothing. -/
theorem C7_post_disconnect_silence (tr1 tr2 : List Input) (x : SocketId)
    (hx : x ∈ (run init tr1).1.connected) :
    (∃ v, (step (run init tr1).1 (.disconnect x)).2 =
        [{ event := "peer-disconnected", payload := obj [("role", v)],
           recipients := setDelete (run init tr1).1.room x }]) ∧
    (∀ e ∈ (step (run init tr1).1 (.disconnect x)).2,
      x ∉ e.recipients ∧ ∀ m, m ∈ e.recipients ↔ (m ∈ (run init tr1).1.room ∧ m ≠ x)) ∧
    (∀ e ∈ (run (step (run init tr1).1 (.disconnect x)).1 tr2).2, x ∉ e.recipients) ∧
    (step (run (step (run init tr1).1 (.disconnect x)).1 tr2).1 (.disconnect x)).2 = [] := by
  have hgone := gone_of_disconnect _ x (hist_all tr1).wf hx
  refine ⟨?_, ?_, ?_, ?_⟩
  · rw [step_disconnect _ x hx]
    exact ⟨_, rfl⟩
  · rw [step_disconnect _ x hx]
    intro e he
    simp only [onDisconnect, List.mem_singleton] at he
    subst he
    refine ⟨?_, ?_⟩
    · intro h
      exact ((mem_setDelete _ _ _).1 h).2 rfl
    · intro m
      exact mem_setDelete _ _ _
  · exact gone_silent _ tr2 x hgone
  · rw [step_disconnect_closed _ x (gone_run _ tr2 x hgone).2.1]

/-- C7 on B (1) closing in the room of A and B, followed by an offer of A, a
role announcement of A and the closing of A. -/
theorem C7_post_disconnect_silence_witness :
    1 ∈ (run init [.connect, .connect, .event 0 "role" (str "broadcaster"),
                   .event 1 "role" (str "listener")]).1.connected ∧
    (∀ e ∈ (run (step (run init [.connect, .connect, .event 0 "role" (str "broadcaster"),
                   .event 1 "role" (str "listener")]).1 (.disconnect 1)).1
              [.event 0 "webrtc-offer" (str "sdp"), .event 0 "role" (str "broadcaster"),
               .event 1 "role" (str "listener"), .disconnect 0]).2, 1 ∉ e.recipients) ∧
    (step (run init [.connect, .connect, .event 0 "role" (str "broadcaster"),
                   .event 1 "role" (str "listener")]).1 (.disconnect 1)).2 =
      [{ event := "peer-disconnected", payload := obj [("role", str "listener")],
         recipients := [0] }] :=
  ⟨by decide,
   (C7_post_disconnect_silence
      [.connect, .connect, .event 0 "role" (str "broadcaster"),
       .event 1 "role" (str "listener")]
      [.event 0 "webrtc-offer" (str "sdp"), .event 0 "role" (str "broadcaster"),
       .event 1 "role" (str "listener"), .disconnect 0] 1 (by decide)).2.2.1,
   rfl⟩

/-- C8: the scenario emits, in order, presence (broadcaster, 1) to A, presence
(listener, 2) to A and B, the offer of A with the payload as sent, under its
event name webrtc-offer, to B only, and peer-disconnected (listener) to A; A
receives nothing of its own offer, and one socket is left in the room. -/
theorem C8_scenario :
    (run init scenario).2 =
      [{ event := "presence",
         payload := obj [("role", str "broadcaster"), ("count", num 1)], recipients := [0] },
       { event := "presence",
         payload := obj [("role", str "listener"), ("count", num 2)], recipients := [0, 1] },
       { event := "webrtc-offer", payload := obj [("sdp", str "v=0...")], recipients := [1] },
       { event := "peer-disconnected", payload := obj [("role", str "listener")],
         recipients := [0] }] ∧
    deliveries (step (run init (scenario.take 4)).1
        (.event 0 "webrtc-offer" (obj [("sdp", str "v=0...")]))).2
      = [(1, "webrtc-offer", obj [("sdp", str "v=0...")])] ∧
    (run init scenario).1.room = [0] ∧
    (run init scenario).1.room.length = 1 :=
  ⟨rfl, rfl, rfl, rfl⟩

/-! ## Facts about the recordings endpoints -/

theorem ADMIN_TOKEN_ne_empty (env : Option String) : ADMIN_TOKEN env ≠ "" := by
  unfold ADMIN_TOKEN
  cases env with
  | none => decide
  | some t =>
      show (if t = "" then "supersecrettoken123" else t) ≠ ""
      by_cases ht : t = ""
      · rw [if_pos ht]; decide
      · rw [if_neg ht]; exact ht

theorem requireAdmin_pass (env : Option String) :
    requireAdmin (ADMIN_TOKEN env) (some (ADMIN_TOKEN env)) = none := by
  show (if ADMIN_TOKEN env = "" ∨ ADMIN_TOKEN env ≠ ADMIN_TOKEN env
        then some unauthorized else none) = none
  rw [if_neg]
  rintro (h | h)
  · exact ADMIN_TOKEN_ne_empty env h
  · exact h rfl

theorem requireAdmin_reject (adminToken : String) (header : Option String)
    (h : header ≠ some adminToken) :
    requireAdmin adminToken header = some unauthorized := by
  cases header with
  | none => rfl
  | some token =>
      show (if token = "" ∨ token ≠ adminToken then some unauthorized else none) = _
      rw [if_pos]
      right
      intro ht
      exact h (by rw [ht])

theorem guarded_pass (env : Option String)
    (handler : Request → IndexFile → Response × IndexFile) (req : Request) (index : IndexFile)
    (h : req.adminHeader = some (ADMIN_TOKEN env)) :
    guarded (ADMIN_TOKEN env) handler req index = handler req index := by
  unfold guarded
  rw [h, requireAdmin_pass]

theorem guarded_reject (adminToken : String)
    (handler : Request → IndexFile → Response × IndexFile) (req : Request) (index : IndexFile)
    (h : req.adminHeader ≠ some adminToken) :
    guarded adminToken handler req index = (unauthorized, index) := by
  unfold guarded
  rw [requireAdmin_reject adminToken req.adminHeader h]

theorem expressJson_pass (route : Request → IndexFile → Response × IndexFile)
    (req : Request) (index : IndexFile) (h : req.body.jsonOk = true) :
    expressJson route req index = route req index := by
  unfold expressJson
  cases hb : req.body with
  | jsonRejected status message => rw [hb] at h; cases h
  | multerRejected => rfl
  | noFile => rfl
  | file f => rfl

theorem expressJson_index (route : Request → IndexFile → Response × IndexFile)
    (req : Request) (index : IndexFile) (h : (route req index).2 = index) :
    (expressJson route req index).2 = index := by
  unfold expressJson
  cases req.body with
  | jsonRejected status message => rfl
  | multerRejected => exact h
  | noFile => exact h
  | file f => exact h

theorem file_body (req : Request) (f : UploadedFile) (hf : req.file = some f) :
    req.body = .file f := by
  unfold Request.file at hf
  cases hb : req.body with
  | jsonRejected status message => rw [hb] at hf; cases hf
  | multerRejected => rw [hb] at hf; cases hf
  | noFile => rw [hb] at hf; cases hf
  | file g =>
      rw [hb] at hf
      cases hf
      rfl

theorem postUpload_stored (env : Option String) (req : Request) (f : UploadedFile)
    (L : List JsVal) (h : req.adminHeader = some (ADMIN_TOKEN env)) (hf : req.file = some f) :
    postUpload env req (some (.json (arr L))) =
      ({ status := 200, body := obj [("ok", bool true), ("meta", metaOf f req.now)] },
       some (.json (arr (metaOf f req.now :: L)))) := by
  have hb := file_body req f hf
  unfold postUpload
  rw [guarded_pass env _ req _ h]
  unfold uploadSingle
  rw [hb]
  show uploadHandler req (some (.json (arr L))) = _
  unfold uploadHandler
  rw [hf]
  rfl

theorem runUploads_stored (env : Option String) (ups : List (UploadedFile × String))
    (L : List JsVal) :
    runUploads env (some (.json (arr L))) (ups.map (fun u => adminUpload env u.1 u.2)) =
      some (.json (arr ((ups.map (fun u => metaOf u.1 u.2)).reverse ++ L))) := by
  induction ups generalizing L with
  | nil => rfl
  | cons u rest ih =>
      show runUploads env
          (postUpload env (adminUpload env u.1 u.2) (some (.json (arr L)))).2
          (rest.map (fun u => adminUpload env u.1 u.2)) = _
      rw [postUpload_stored env (adminUpload env u.1 u.2) u.1 L rfl rfl]
      show runUploads env (some (.json (arr (metaOf u.1 u.2 :: L)))) _ = _
      rw [ih]
      simp

/-- C9: for every request to the upload or the listing route, `requireAdmin`
calls `next()` exactly when the header x-admin-token is present and equal to the
configured ADMIN_TOKEN; then whatever follows it in the route runs: on the
upload route `upload.single('audio')` and, when that yields a file, the handler;
on the listing route the handler.  In every other case (header absent, empty or
different) it answers 401 with the body error: Unauthorized, whatever follows it
is not run, and the recordings index stays as it was.  Through the application
the routes are reached by the requests whose body `express.json()` lets
through; for a request without the token the index stays as it was either way. -/
theorem C9_requireAdmin (env : Option String) (req : Request) (index : IndexFile) :
    (requireAdmin (ADMIN_TOKEN env) req.adminHeader = none ↔
      req.adminHeader = some (ADMIN_TOKEN env)) ∧
    (req.adminHeader = some (ADMIN_TOKEN env) →
      (∀ handler : Request → IndexFile → Response × IndexFile,
        guarded (ADMIN_TOKEN env) handler req index = handler req index) ∧
      postUpload env req index = uploadSingle uploadHandler req index ∧
      getRecordings env req index = listHandler index ∧
      (∀ f, req.file = some f → postUpload env req index = uploadHandler req index)) ∧
    (req.adminHeader ≠ some (ADMIN_TOKEN env) →
      requireAdmin (ADMIN_TOKEN env) req.adminHeader =
        some { status := 401, body := obj [("error", str "Unauthorized")] } ∧
      (∀ handler : Request → IndexFile → Response × IndexFile,
        guarded (ADMIN_TOKEN env) handler req index =
          ({ status := 401, body := obj [("error", str "Unauthorized")] }, index)) ∧
      postUpload env req index =
        ({ status := 401, body := obj [("error", str "Unauthorized")] }, index) ∧
      getRecordings env req index =
        ({ status := 401, body := obj [("error", str "Unauthorized")] }, index) ∧
      (req.body.jsonOk = true →
        appPostUpload env req index =
          ({ status := 401, body := obj [("error", str "Unauthorized")] }, index) ∧
        appGetRecordings env req index =
          ({ status := 401, body := obj [("error", str "Unauthorized")] }, index)) ∧
      (appPostUpload env req index).2 = index ∧
      (appGetRecordings env req index).2 = index) := by
  refine ⟨?_, ?_, ?_⟩
  · constructor
    · intro h
      by_contra hne
      rw [requireAdmin_reject _ _ hne] at h
      cases h
    · intro h
      rw [h]
      exact requireAdmin_pass env
  · intro h
    refine ⟨fun handler => guarded_pass env handler req index h,
      guarded_pass env _ req index h, guarded_pass env _ req index h, ?_⟩
    intro f hf
    have hb := file_body req f hf
    unfold postUpload
    rw [guarded_pass env _ req index h]
    unfold uploadSingle
    rw [hb]
  · intro h
    have hp : postUpload env req index = (unauthorized, index) :=
      guarded_reject _ _ req index h
    have hg : getRecordings env req index = (unauthorized, index) :=
      guarded_reject _ _ req index h
    refine ⟨requireAdmin_reject _ _ h, fun handler => guarded_reject _ handler req index h,
      hp, hg, ?_, ?_, ?_⟩
    · intro hj
      constructor
      · unfold appPostUpload
        rw [expressJson_pass _ req index hj, hp]
        rfl
      · unfold appGetRecordings
        rw [expressJson_pass _ req index hj, hg]
        rfl
    · unfold appPostUpload
      apply expressJson_index
      rw [hp]
    · unfold appGetRecordings
      apply expressJson_index
      rw [hg]

/-- C9 with ADMIN_TOKEN unset in the environment: with the default token an
upload with a file reaches the handler, and an upload that `upload.single`
rejects is answered 500 without it; an empty or absent header is answered 401
and the index is not touched, also through the application. -/
theorem C9_requireAdmin_witness :
    ((adminUpload none { ts := 1, size := 2 } "t").adminHeader = some (ADMIN_TOKEN none) ∧
      (adminUpload none { ts := 1, size := 2 } "t").file = some { ts := 1, size := 2 } ∧
      postUpload none (adminUpload none { ts := 1, size := 2 } "t") (some (.json (arr [])))
        = uploadHandler (adminUpload none { ts := 1, size := 2 } "t") (some (.json (arr [])))) ∧
    ((({ adminHeader := some "supersecrettoken123", body := .multerRejected, now := "t" } :
          Request).adminHeader = some (ADMIN_TOKEN none)) ∧
      postUpload none { adminHeader := some "supersecrettoken123", body := .multerRejected,
                        now := "t" } (some (.json (arr [])))
        = ({ status := 500, body := str "Internal Server Error" }, some (.json (arr [])))) ∧
    ((({ adminHeader := some "", body := .file { ts := 1, size := 2 }, now := "t" } :
          Request).adminHeader ≠ some (ADMIN_TOKEN none)) ∧
      (({ adminHeader := some "", body := .file { ts := 1, size := 2 }, now := "t" } :
          Request).body.jsonOk = true) ∧
      appPostUpload none
          { adminHeader := some "", body := .file { ts := 1, size := 2 }, now := "t" }
          (some (.json (arr [])))
        = ({ status := 401, body := obj [("error", str "Unauthorized")] },
           some (.json (arr [])))) ∧
    ((({ adminHeader := none, body := .noFile, now := "t" } : Request).adminHeader
        ≠ some (ADMIN_TOKEN none)) ∧
      getRecordings none { adminHeader := none, body := .noFile, now := "t" }
          (some (.json (arr [str "x"])))
        = ({ status := 401, body := obj [("error", str "Unauthorized")] },
           some (.json (arr [str "x"])))) :=
  ⟨⟨rfl, rfl, ((C9_requireAdmin none (adminUpload none { ts := 1, size := 2 } "t")
      (some (.json (arr [])))).2.1 rfl).2.2.2 { ts := 1, size := 2 } rfl⟩,
   ⟨rfl, ((C9_requireAdmin none
      { adminHeader := some "supersecrettoken123", body := .multerRejected, now := "t" }
      (some (.json (arr [])))).2.1 rfl).2.1⟩,
   ⟨by decide, rfl, (((C9_requireAdmin none
      { adminHeader := some "", body := .file { ts := 1, size := 2 }, now := "t" }
      (some (.json (arr [])))).2.2 (by decide)).2.2.2.2.1 rfl).1⟩,
   ⟨by decide, ((C9_requireAdmin none { adminHeader := none, body := .noFile, now := "t" }
      (some (.json (arr [str "x"])))).2.2 (by decide)).2.2.2.1⟩⟩

/-- C10: on a stored index list L, an authorised upload of file f answers with
the record m of f and stores m followed by L in its order; the authorised
listing answers with the stored list and leaves it as it is; so after any
sequence of authorised uploads onto the empty index the listing answers with
the records of all uploads, the newest first, as many as there were uploads. -/
theorem C10_index_newest_first (env : Option String) :
    (∀ (L : List JsVal) (req : Request) (f : UploadedFile),
      req.adminHeader = some (ADMIN_TOKEN env) → req.file = some f →
      postUpload env req (some (.json (arr L))) =
        ({ status := 200, body := obj [("ok", bool true), ("meta", metaOf f req.now)] },
         some (.json (arr (metaOf f req.now :: L))))) ∧
    (∀ (L : List JsVal) (req : Request), req.adminHeader = some (ADMIN_TOKEN env) →
      getRecordings env req (some (.json (arr L))) =
        ({ status := 200, body := arr L }, some (.json (arr L)))) ∧
    (∀ (ups : List (UploadedFile × String)) (req : Request),
      req.adminHeader = some (ADMIN_TOKEN env) →
      (getRecordings env req
          (runUploads env (some (.json (arr [])))
            (ups.map (fun u => adminUpload env u.1 u.2)))).1 =
        { status := 200, body := arr ((ups.map (fun u => metaOf u.1 u.2)).reverse) } ∧
      ((ups.map (fun u => metaOf u.1 u.2)).reverse).length = ups.length) := by
  refine ⟨?_, ?_, ?_⟩
  · intro L req f h hf
    exact postUpload_stored env req f L h hf
  · intro L req h
    unfold getRecordings
    rw [guarded_pass env _ req _ h]
    rfl
  · intro ups req h
    refine ⟨?_, by simp⟩
    rw [runUploads_stored, List.append_nil]
    unfold getRecordings
    rw [guarded_pass env _ req _ h]
    rfl

/-- C10 on two uploads, at times 1 and 2, onto the empty index: the first
upload stores its record alone, and after the second the listing answers with
the record of the second upload, then the record of the first. -/
theorem C10_index_newest_first_witness :
    ((adminUpload none { ts := 1, size := 10 } "d1").adminHeader = some (ADMIN_TOKEN none) ∧
     (adminUpload none { ts := 1, size := 10 } "d1").file = some { ts := 1, size := 10 }) ∧
    postUpload none (adminUpload none { ts := 1, size := 10 } "d1") (some (.json (arr []))) =
      ({ status := 200,
         body := obj [("ok", bool true), ("meta", metaOf { ts := 1, size := 10 } "d1")] },
       some (.json (arr [metaOf { ts := 1, size := 10 } "d1"]))) ∧
    (({ adminHeader := some "supersecrettoken123", body := .noFile, now := "t" } : Request).adminHeader
        = some (ADMIN_TOKEN none)) ∧
    (getRecordings none { adminHeader := some "supersecrettoken123", body := .noFile, now := "t" }
        (runUploads none (some (.json (arr [])))
          [adminUpload none { ts := 1, size := 10 } "d1",
           adminUpload none { ts := 2, size := 20 } "d2"])).1 =
      { status := 200,
        body := arr [metaOf { ts := 2, size := 20 } "d2", metaOf { ts := 1, size := 10 } "d1"] } ∧
    metaOf { ts := 2, size := 20 } "d2" =
      obj [("id", str "2"), ("filename", str "2.webm"), ("size", num 20),
           ("createdAt", str "d2")] :=
  ⟨⟨rfl, rfl⟩,
   (C10_index_newest_first none).1 [] (adminUpload none { ts := 1, size := 10 } "d1")
      { ts := 1, size := 10 } rfl rfl,
   rfl,
   ((C10_index_newest_first none).2.2
      [({ ts := 1, size := 10 }, "d1"), ({ ts := 2, size := 20 }, "d2")]
      { adminHeader := some "supersecrettoken123", body := .noFile, now := "t" } rfl).1,
   by rfl⟩

end VoiceStream
